import Mathlib

/-!
Verification of the opcode-table test-descriptor generator (`src/main.mjs`).

The program iterates the `unprefixed` opcode table and, for each entry,
derives a test name, a machine-code byte list, an assembly string and a
machine-cycle count, emitting one text line per entry.  Below is a shallow
embedding of that generator: entries and operands become structures, the
per-operand processing of the `.map` callback becomes pure functions, and
JavaScript string operations (`toLowerCase`, `replaceAll('$','')`, `trim`)
become explicit functions on character lists.
-/

/-- An operand record of an opcode-table entry: fields `name`, `immediate`,
`increment`, `decrement`, as destructured by the generator. -/
structure Operand where
  name : String
  immediate : Bool
  increment : Bool
  decrement : Bool
deriving DecidableEq, Repr

/-- An opcode-table entry together with its table key (`opcode`): fields
`mnemonic`, `operands`, `cycles` as destructured by the generator. -/
structure Entry where
  opcode : String
  mnemonic : String
  operands : List Operand
  cycles : List Nat
deriving DecidableEq, Repr

/-- The name part an operand pushes onto `testNames`: the increment branch
pushes `name_increment`, else the decrement branch pushes `name_decrement`,
else the plain name. -/
def operandNamePart (o : Operand) : String :=
  if o.increment then o.name ++ "_increment"
  else if o.decrement then o.name ++ "_decrement"
  else o.name

/-- The `value` accumulated before the placeholder `switch`: the operand name
with `+` appended in the increment branch, `-` in the decrement branch. -/
def suffixedName (o : Operand) : String :=
  if o.increment then o.name ++ "+"
  else if o.decrement then o.name ++ "-"
  else o.name

/-- The `value` after the placeholder `switch` keyed on the original operand
name: `n16`/`a16` become `0x1234`, `n8`/`a8` become `0x12`, `e8` becomes
`123`; any other name keeps the suffixed value. -/
def operandValue (o : Operand) : String :=
  if o.name = "n16" ∨ o.name = "a16" then "0x1234"
  else if o.name = "n8" ∨ o.name = "a8" then "0x12"
  else if o.name = "e8" then "123"
  else suffixedName o

/-- The bytes the placeholder `switch` pushes onto `machineCode`:
`0x34` then `0x12` for `n16`/`a16`, `0x12` for `n8`/`a8`, `0x7B` for `e8`,
nothing otherwise. -/
def operandBytes (o : Operand) : List String :=
  if o.name = "n16" ∨ o.name = "a16" then ["0x34", "0x12"]
  else if o.name = "n8" ∨ o.name = "a8" then ["0x12"]
  else if o.name = "e8" then ["0x7B"]
  else []

/-- The rendered token the `.map` callback returns: the value itself when
`immediate`, else the value wrapped in parentheses. -/
def operandToken (o : Operand) : String :=
  if o.immediate then operandValue o else "(" ++ operandValue o ++ ")"

/-- JavaScript `toLowerCase` restricted to the basic latin range, applied
character by character (the only range the generated names use). -/
def jsToLower (s : String) : String :=
  String.mk (s.data.map Char.toLower)

/-- JavaScript `replaceAll('$', '')`: drop every dollar character. -/
def stripDollars (s : String) : String :=
  String.mk (s.data.filter (fun c => c ≠ '$'))

/-- Drop trailing whitespace from a character list. -/
def dropTrailWS (l : List Char) : List Char :=
  (l.reverse.dropWhile (fun c => c.isWhitespace)).reverse

/-- JavaScript `trim`: drop leading and trailing whitespace. -/
def jsTrim (s : String) : String :=
  String.mk ((dropTrailWS s.data).dropWhile (fun c => c.isWhitespace))

/-- The derived test descriptor of one entry.  `machineCycles` is a rational:
the cycle counts involved are small integers and division by 4 is exact in
JavaScript doubles, so ℚ models the arithmetic faithfully. -/
structure TestDescriptor where
  testName : String
  machineCode : List String
  assembly : String
  machineCycles : ℚ
deriving DecidableEq, Repr

/-- The generator body for one entry: test name from the mnemonic and the
per-operand name parts joined by `_`, lowercased, dollars stripped;
machine code from the opcode key followed by the per-operand bytes;
assembly from the mnemonic and the comma-joined rendered tokens, trimmed;
machine cycles from `cycles[0] / 4`. -/
def genDescriptor (e : Entry) : TestDescriptor :=
  ⟨stripDollars (jsToLower (String.intercalate "_" (e.mnemonic :: e.operands.map operandNamePart))),
   e.opcode :: (e.operands.map operandBytes).flatten,
   jsTrim (e.mnemonic ++ " " ++ String.intercalate ", " (e.operands.map operandToken)),
   (e.cycles.headI : ℚ) / 4⟩

/-- Decimal rendering of a machine-cycle count, as JavaScript prints the
numbers this program produces: the counts are nonnegative quarters, so the
denominator is 1, 2 or 4 and the fractional digits are 5, 25 or 75. -/
def renderCycles (q : ℚ) : String :=
  if q.den = 1 then toString q.num
  else if q.den = 2 then toString (q.num / 2) ++ ".5"
  else if q.den = 4 then toString (q.num / 4) ++ (if q.num % 4 = 1 then ".25" else ".75")
  else toString q.num ++ "/" ++ toString q.den

/-- The text line emitted for one entry: 12 spaces, the test name, a colon,
the machine-code bytes joined by commas, an arrow, the quoted assembly, the
machine-cycle count and a trailing comma. -/
def outputLine (e : Entry) : String :=
  "            " ++ (genDescriptor e).testName ++ ": " ++
    String.intercalate ", " (genDescriptor e).machineCode ++ " => \"" ++
    (genDescriptor e).assembly ++ "\", " ++
    renderCycles (genDescriptor e).machineCycles ++ ","

/-- The whole run over the `unprefixed` table: one line per entry, in table
iteration order, nothing before, between or after. -/
def generate (table : List Entry) : List String :=
  table.map outputLine

/-- A JavaScript number: either an ordinary (here always rational) value or
`NaN`, which arises when an arithmetic operand is `undefined`. -/
inductive JSNum where
  | nan : JSNum
  | num : ℚ → JSNum
deriving DecidableEq, Repr

/-- How JavaScript string interpolation prints a `JSNum`. -/
def renderJSNum : JSNum → String
  | JSNum.nan => "NaN"
  | JSNum.num q => renderCycles q

/-- A table entry as it reaches the destructuring pattern when fields may be
missing: a missing field destructures to `undefined`, modelled as `none`. -/
structure RawEntry where
  opcode : String
  mnemonic : Option String
  operands : Option (List Operand)
  cycles : Option (List Nat)
deriving DecidableEq, Repr

/-- JavaScript template-literal interpolation of a possibly-undefined
string: `ToString(undefined)` is the text `undefined`. -/
def jsUndefToStr : Option String → String
  | none => "undefined"
  | some s => s

/-- How `Array.prototype.join` renders a possibly-undefined element: an
`undefined` element becomes the empty string, not the text `undefined`. -/
def jsJoinUndef : Option String → String
  | none => ""
  | some s => s

/-- The generator body on a raw entry, following JavaScript evaluation:
dereferencing `undefined` (`operands.map` when `operands` is missing,
`cycles[0]` when `cycles` is missing) throws a `TypeError` that terminates
the run before the line is printed; an out-of-range `cycles[0]` is
`undefined`, and dividing it by 4 yields `NaN`, which is printed; a missing
`mnemonic` does not fail: inside `testNames.join` the `undefined` element
renders as the empty string, while the template literal for the assembly
renders it as the text `undefined`. -/
def genRaw (e : RawEntry) : Except String String :=
  match e.operands with
  | none => Except.error "TypeError: cannot read map of undefined"
  | some ops =>
    match e.cycles with
    | none => Except.error "TypeError: cannot read 0 of undefined"
    | some cs =>
      let testName := stripDollars (jsToLower
        (String.intercalate "_" (jsJoinUndef e.mnemonic :: ops.map operandNamePart)))
      let machineCode := e.opcode :: (ops.map operandBytes).flatten
      let assembly := jsTrim (jsUndefToStr e.mnemonic ++ " " ++
        String.intercalate ", " (ops.map operandToken))
      let c0 : Option Nat := cs[0]?
      let mc : JSNum := match c0 with
        | none => JSNum.nan
        | some c => JSNum.num ((c : ℚ) / 4)
      Except.ok ("            " ++ testName ++ ": " ++ String.intercalate ", " machineCode ++
        " => \"" ++ assembly ++ "\", " ++ renderJSNum mc ++ ",")

/-- The placeholder operand names, as listed by the spec. -/
def placeholderNames : List String := ["n16", "a16", "n8", "a8", "e8"]

/-- The number of operands whose name is a placeholder name. -/
def countPlaceholderOperands (l : List Operand) : Nat :=
  (l.filter (fun o => placeholderNames.contains o.name)).length

/-- The byte contribution of one operand name as the spec states it:
2 for `n16`/`a16`, 1 for `n8`/`a8`/`e8`, 0 otherwise. -/
def placeholderByteCount (name : String) : Nat :=
  if name = "n16" ∨ name = "a16" then 2
  else if name = "n8" ∨ name = "a8" ∨ name = "e8" then 1
  else 0

/-- The run over raw entries: the lines printed before any failure, and the
error that terminated the run, if any; entries after a failing one are
never processed. -/
def runRaw (table : List RawEntry) : List String × Option String :=
  match table with
  | [] => ([], none)
  | e :: rest =>
    match genRaw e with
    | Except.error msg => ([], some msg)
    | Except.ok line => ((runRaw rest).1.cons line, (runRaw rest).2)

example : genDescriptor ⟨"0x01", "LD", [⟨"HL", false, false, false⟩, ⟨"n8", true, false, false⟩], [8]⟩ =
    ⟨"ld_hl_n8", ["0x01", "0x12"], "LD (HL), 0x12", 2⟩ := by
  simp only [genDescriptor, TestDescriptor.mk.injEq]
  exact ⟨by decide, by decide, by decide, by norm_num⟩

example : renderCycles 2 = "2" := by norm_num [renderCycles]; decide
example : renderCycles (1 / 4) = "0.25" := by norm_num [renderCycles]; decide

/-- Appending different single characters to the same string yields
different strings. -/
theorem append_char_ne (n : String) (a b : Char) (hab : a ≠ b) :
    n ++ String.mk [a] ≠ n ++ String.mk [b] := by
  intro h
  have hd := congrArg String.data h
  simp only [String.data_append] at hd
  exact hab (List.cons.injEq a [] b [] ▸ List.append_cancel_left hd).1

/-- Appending different suffix strings to the same string yields different
strings. -/
theorem append_str_ne (n s t : String) (hst : s ≠ t) : n ++ s ≠ n ++ t := by
  intro h
  have hd := congrArg String.data h
  simp only [String.data_append] at hd
  exact hst (String.ext (List.append_cancel_left hd))

/-- C1: placeholder substitution is keyed on the original operand name and
is independent of the `immediate`, `increment` and `decrement` flags:
`n16`/`a16` append bytes `0x34`, `0x12` and the value becomes `0x1234`;
`n8`/`a8` append `0x12` and the value becomes `0x12`; `e8` appends `0x7B`
and the value becomes `123`; any other name appends no bytes and the value
passes through the switch unchanged, so that with no increment/decrement
flag it is the name verbatim. -/
theorem substitution_keyed_on_name (o : Operand) :
    ((o.name = "n16" ∨ o.name = "a16") →
        operandBytes o = ["0x34", "0x12"] ∧ operandValue o = "0x1234")
    ∧ ((o.name = "n8" ∨ o.name = "a8") →
        operandBytes o = ["0x12"] ∧ operandValue o = "0x12")
    ∧ (o.name = "e8" → operandBytes o = ["0x7B"] ∧ operandValue o = "123")
    ∧ (o.name ≠ "n16" → o.name ≠ "a16" → o.name ≠ "n8" → o.name ≠ "a8" → o.name ≠ "e8" →
        operandBytes o = [] ∧ operandValue o = suffixedName o ∧
          (o.increment = false → o.decrement = false → operandValue o = o.name)) := by
  obtain ⟨n, imm, inc, dec⟩ := o
  refine ⟨?_, ?_, ?_, ?_⟩
  · rintro (rfl | rfl) <;> exact ⟨rfl, rfl⟩
  · rintro (rfl | rfl) <;> exact ⟨rfl, rfl⟩
  · rintro rfl; exact ⟨rfl, rfl⟩
  · intro h1 h2 h3 h4 h5
    refine ⟨?_, ?_, ?_⟩
    · simp [operandBytes, h1, h2, h3, h4, h5]
    · simp [operandValue, h1, h2, h3, h4, h5]
    · rintro rfl rfl
      simp [operandValue, suffixedName, h1, h2, h3, h4, h5]

/-- C1 witness: the four substitution branches at concrete operands. -/
theorem substitution_keyed_on_name_witness :
    (operandBytes ⟨"n16", true, false, false⟩ = ["0x34", "0x12"] ∧
      operandValue ⟨"n16", true, false, false⟩ = "0x1234")
    ∧ (operandBytes ⟨"a8", false, false, false⟩ = ["0x12"] ∧
      operandValue ⟨"a8", false, false, false⟩ = "0x12")
    ∧ (operandBytes ⟨"e8", true, false, false⟩ = ["0x7B"] ∧
      operandValue ⟨"e8", true, false, false⟩ = "123")
    ∧ (operandBytes ⟨"HL", true, false, false⟩ = [] ∧
      operandValue ⟨"HL", true, false, false⟩ = "HL") :=
  ⟨(substitution_keyed_on_name _).1 (Or.inl rfl),
   (substitution_keyed_on_name _).2.1 (Or.inr rfl),
   (substitution_keyed_on_name _).2.2.1 rfl,
   ⟨((substitution_keyed_on_name ⟨"HL", true, false, false⟩).2.2.2
        (by decide) (by decide) (by decide) (by decide) (by decide)).1,
    ((substitution_keyed_on_name ⟨"HL", true, false, false⟩).2.2.2
        (by decide) (by decide) (by decide) (by decide) (by decide)).2.2 rfl rfl⟩⟩

/-- C3: the rendered token is the computed value when `immediate` is true
and the value wrapped in parentheses when `immediate` is false; an operand
named `a16` with `immediate` false renders as `(0x1234)` while still
contributing the bytes `0x34`, `0x12`. -/
theorem token_parenthesisation (o : Operand) :
    (o.immediate = true → operandToken o = operandValue o)
    ∧ (o.immediate = false → operandToken o = "(" ++ operandValue o ++ ")")
    ∧ (o.name = "a16" → o.immediate = false →
        operandToken o = "(0x1234)" ∧ operandBytes o = ["0x34", "0x12"]) := by
  obtain ⟨n, imm, inc, dec⟩ := o
  refine ⟨?_, ?_, ?_⟩
  · rintro rfl; simp [operandToken]
  · rintro rfl; simp [operandToken]
  · rintro rfl rfl; exact ⟨rfl, rfl⟩

/-- C3 witness: the indirect 16-bit address scenario at a concrete
operand. -/
theorem token_parenthesisation_witness :
    operandToken ⟨"a16", false, false, false⟩ = "(0x1234)" ∧
      operandBytes ⟨"a16", false, false, false⟩ = ["0x34", "0x12"] :=
  (token_parenthesisation ⟨"a16", false, false, false⟩).2.2 rfl rfl

/-- C4: an `increment` operand gets `+` appended to its value and pushes
`name_increment`; otherwise a `decrement` operand gets `-` appended and
pushes `name_decrement`; otherwise the unmodified name is pushed; the
operand `HL`, immediate, increment renders as `HL+` and contributes
`hl_increment` to the lowercased test name, not `hl`. -/
theorem increment_decrement_suffixing (o : Operand) :
    (o.increment = true →
        suffixedName o = o.name ++ "+" ∧ operandNamePart o = o.name ++ "_increment")
    ∧ (o.increment = false → o.decrement = true →
        suffixedName o = o.name ++ "-" ∧ operandNamePart o = o.name ++ "_decrement")
    ∧ (o.increment = false → o.decrement = false →
        suffixedName o = o.name ∧ operandNamePart o = o.name)
    ∧ (o.name = "HL" → o.immediate = true → o.increment = true →
        operandToken o = "HL+" ∧ operandNamePart o = "HL_increment" ∧
          jsToLower (operandNamePart o) = "hl_increment" ∧
          jsToLower (operandNamePart o) ≠ "hl") := by
  obtain ⟨n, imm, inc, dec⟩ := o
  refine ⟨?_, ?_, ?_, ?_⟩
  · rintro rfl; exact ⟨rfl, rfl⟩
  · rintro rfl rfl; exact ⟨rfl, rfl⟩
  · rintro rfl rfl; exact ⟨rfl, rfl⟩
  · rintro rfl rfl rfl
    refine ⟨rfl, rfl, ?_, ?_⟩
    · show jsToLower ("HL" ++ "_increment") = "hl_increment"
      decide
    · show jsToLower ("HL" ++ "_increment") ≠ "hl"
      decide

/-- C4 witness: the increment scenario at the concrete operand `HL`. -/
theorem increment_decrement_suffixing_witness :
    operandToken ⟨"HL", true, true, false⟩ = "HL+" ∧
      operandNamePart ⟨"HL", true, true, false⟩ = "HL_increment" ∧
      jsToLower (operandNamePart ⟨"HL", true, true, false⟩) = "hl_increment" ∧
      jsToLower (operandNamePart ⟨"HL", true, true, false⟩) ≠ "hl" :=
  (increment_decrement_suffixing ⟨"HL", true, true, false⟩).2.2.2 rfl rfl rfl

/-- C10: when both `increment` and `decrement` are set, the increment
branch takes precedence: the value gets the `+` suffix, never `-`, and the
pushed name part is `name_increment`, not `name_decrement`. -/
theorem increment_precedence (o : Operand) (h1 : o.increment = true) (h2 : o.decrement = true) :
    suffixedName o = o.name ++ "+" ∧ suffixedName o ≠ o.name ++ "-"
    ∧ operandNamePart o = o.name ++ "_increment"
    ∧ operandNamePart o ≠ o.name ++ "_decrement" := by
  obtain ⟨n, imm, inc, dec⟩ := o
  simp only at h1 h2
  subst h1; subst h2
  refine ⟨rfl, ?_, rfl, ?_⟩
  · simp only [suffixedName, if_pos rfl]
    exact append_str_ne n "+" "-" (by decide)
  · simp only [operandNamePart, if_pos rfl]
    exact append_str_ne n "_increment" "_decrement" (by decide)

/-- Packing a valid codepoint and unpacking it is the identity. -/
theorem char_toNat_ofNat {n : Nat} (h : n.isValidChar) : (Char.ofNat n).toNat = n := by
  simp [Char.ofNat, dif_pos h, Char.ofNatAux, Char.toNat, UInt32.toNat]

/-- `Char.isUpper` in terms of the codepoint. -/
theorem isUpper_iff (c : Char) : c.isUpper = true ↔ 65 ≤ c.toNat ∧ c.toNat ≤ 90 := by
  simp [Char.isUpper, UInt32.le_def, BitVec.le_def, Char.toNat, UInt32.toNat]

/-- Lowercasing never produces an uppercase letter. -/
theorem toLower_not_upper (c : Char) : (Char.toLower c).isUpper = false := by
  rw [Char.toLower]
  split
  · rename_i h
    have hv : (c.toNat + 32).isValidChar := by
      left
      omega
    rw [Bool.eq_false_iff]
    intro hu
    rw [isUpper_iff] at hu
    rw [char_toNat_ofNat hv] at hu
    omega
  · rename_i h
    rw [Bool.eq_false_iff]
    intro hu
    rw [isUpper_iff] at hu
    exact h ⟨hu.1, hu.2⟩

/-- Lowercasing fixes characters that are not uppercase letters. -/
theorem toLower_fix (c : Char) (h : c.isUpper = false) : Char.toLower c = c := by
  rw [Char.toLower]
  split
  · rename_i hc
    rw [Bool.eq_false_iff] at h
    exact absurd (isUpper_iff c |>.2 ⟨hc.1, hc.2⟩) h
  · rfl

/-- Mapping a function that fixes every element of a list is the
identity. -/
theorem map_fixed {α : Type} (f : α → α) (l : List α) (h : ∀ x ∈ l, f x = x) :
    l.map f = l := by
  induction l with
  | nil => rfl
  | cons a t ih =>
    simp only [List.map_cons, h a (by simp), ih (fun x hx => h x (by simp [hx]))]

/-- C10 witness: both flags set on the concrete operand `HL`. -/
theorem increment_precedence_witness :
    suffixedName ⟨"HL", true, true, true⟩ = "HL" ++ "+" ∧
      suffixedName ⟨"HL", true, true, true⟩ ≠ "HL" ++ "-" ∧
      operandNamePart ⟨"HL", true, true, true⟩ = "HL" ++ "_increment" ∧
      operandNamePart ⟨"HL", true, true, true⟩ ≠ "HL" ++ "_decrement" :=
  increment_precedence ⟨"HL", true, true, true⟩ rfl rfl

/-- C5: the test name is the underscore-join of the name parts, lowercased,
with all dollar characters removed; hence it contains no dollar character
and no uppercase letter, and is unchanged by lowercasing again. -/
theorem test_name_properties (e : Entry) :
    (genDescriptor e).testName =
      stripDollars (jsToLower (String.intercalate "_" (e.mnemonic :: e.operands.map operandNamePart)))
    ∧ (∀ c ∈ (genDescriptor e).testName.data, c ≠ '$' ∧ c.isUpper = false)
    ∧ jsToLower (genDescriptor e).testName = (genDescriptor e).testName := by
  refine ⟨rfl, ?_, ?_⟩
  · intro c hc
    have hc2 : c ∈ (jsToLower (String.intercalate "_" (e.mnemonic :: e.operands.map operandNamePart))).data
        ∧ (c ≠ '$') := by
      have := List.mem_filter.1 hc
      exact ⟨this.1, by simpa using this.2⟩
    obtain ⟨c0, _, rfl⟩ := List.mem_map.1 hc2.1
    exact ⟨hc2.2, toLower_not_upper c0⟩
  · show String.mk (((genDescriptor e).testName.data).map Char.toLower) = (genDescriptor e).testName
    have h : ∀ c ∈ (genDescriptor e).testName.data, Char.toLower c = c := by
      intro c hc
      have := List.mem_filter.1 hc
      obtain ⟨c0, _, rfl⟩ := List.mem_map.1 this.1
      exact toLower_fix _ (toLower_not_upper c0)
    rw [map_fixed _ _ h]

/-- C5 witness: the no-dollar no-uppercase property discharged at one
character of a concrete test name. -/
theorem test_name_properties_witness :
    (genDescriptor ⟨"0x22", "LD", [⟨"HL", true, true, false⟩, ⟨"A", true, false, false⟩], [8]⟩).testName
      = "ld_hl_increment_a"
    ∧ ('l' ≠ '$' ∧ Char.isUpper 'l' = false) :=
  ⟨by decide,
   (test_name_properties ⟨"0x22", "LD", [⟨"HL", true, true, false⟩, ⟨"A", true, false, false⟩], [8]⟩).2.1
      'l' (by decide)⟩

/-- The bytes the code pushes for an operand number as many as the spec's
per-name contribution. -/
theorem operandBytes_length (o : Operand) :
    (operandBytes o).length = placeholderByteCount o.name := by
  unfold operandBytes placeholderByteCount
  split_ifs <;> simp_all

/-- The flattened per-operand byte lists have as many elements as the
summed per-name contributions. -/
theorem flatten_bytes_length (ops : List Operand) :
    (List.flatten (ops.map operandBytes)).length =
      (ops.map (fun o => placeholderByteCount o.name)).sum := by
  induction ops with
  | nil => rfl
  | cons o t ih => simp [operandBytes_length o, ih]

/-- C2 counterexample: for an entry with a single `n16` operand the machine
code has 3 bytes, so `machineCode.length - 1` is 2, not the count (1) of
placeholder operands. -/
theorem machine_code_length_counterexample :
    (genDescriptor ⟨"0x01", "LD", [⟨"n16", true, false, false⟩], [12]⟩).machineCode.length - 1 ≠
      countPlaceholderOperands [⟨"n16", true, false, false⟩] := by decide

/-- C2 (amended): the machine code is the opcode byte plus the total bytes
contributed by placeholder operands, each `n16`/`a16` operand contributing
exactly 2 bytes and each `n8`/`a8`/`e8` operand exactly 1. -/
theorem machine_code_length (e : Entry) :
    (genDescriptor e).machineCode.length =
      1 + (e.operands.map (fun o => placeholderByteCount o.name)).sum
    ∧ ∀ o : Operand, (operandBytes o).length = placeholderByteCount o.name := by
  refine ⟨?_, fun o => operandBytes_length o⟩
  have h := flatten_bytes_length e.operands
  simp only [List.length_flatten, List.map_map] at h
  simp [genDescriptor, List.length_flatten, h, Nat.add_comm]

/-- C6: the machine-cycle count is the first element of `cycles` divided by
4, as an exact rational division. -/
theorem machine_cycles_division (e : Entry) (c : Nat) (rest : List Nat)
    (h : e.cycles = c :: rest) :
    (genDescriptor e).machineCycles = (c : ℚ) / 4 := by
  simp [genDescriptor, h]

/-- C6 witness: `cycles = [1]` yields exactly 0.25 and `cycles = [8]`
yields exactly 2. -/
theorem machine_cycles_division_witness :
    (genDescriptor ⟨"0x00", "NOP", [], [1]⟩).machineCycles = 0.25 ∧
      (genDescriptor ⟨"0x00", "NOP", [], [8]⟩).machineCycles = 2 := by
  constructor
  · rw [machine_cycles_division ⟨"0x00", "NOP", [], [1]⟩ 1 [] rfl]; norm_num
  · rw [machine_cycles_division ⟨"0x00", "NOP", [], [8]⟩ 8 [] rfl]; norm_num

/-- Trailing whitespace removal absorbs an appended space. -/
theorem dropTrailWS_append_space (l : List Char) :
    dropTrailWS (l ++ [' ']) = dropTrailWS l := by
  simp [dropTrailWS, List.dropWhile]

/-- Trimming absorbs an appended space. -/
theorem jsTrim_append_space (s : String) : jsTrim (s ++ " ") = jsTrim s := by
  have h : (s ++ " ").data = s.data ++ [' '] := by simp
  simp [jsTrim, h, dropTrailWS_append_space]

/-- C7: for an entry whose mnemonic carries no surrounding whitespace, zero
operands make the assembly exactly the mnemonic, with no trailing space;
in general the assembly is the trim of the mnemonic, a space, and the
comma-joined rendered tokens. -/
theorem assembly_formation (e : Entry) (h : jsTrim e.mnemonic = e.mnemonic) :
    (e.operands = [] → (genDescriptor e).assembly = e.mnemonic)
    ∧ (genDescriptor e).assembly =
        jsTrim (e.mnemonic ++ " " ++ String.intercalate ", " (e.operands.map operandToken)) := by
  refine ⟨?_, rfl⟩
  intro h0
  show jsTrim (e.mnemonic ++ " " ++ String.intercalate ", " (e.operands.map operandToken)) = e.mnemonic
  rw [h0]
  show jsTrim (e.mnemonic ++ " " ++ "") = e.mnemonic
  rw [String.append_empty, jsTrim_append_space, h]

/-- C7 witness: the zero-operand entry `NOP` yields assembly `NOP`. -/
theorem assembly_formation_witness :
    (genDescriptor ⟨"0x00", "NOP", [], [4]⟩).assembly = "NOP" :=
  (assembly_formation ⟨"0x00", "NOP", [], [4]⟩ (by decide)).1 rfl

/-- C8: the run emits exactly one line per entry, in table order, with no
header or footer; each line is 12 spaces, the test name, a colon-space, the
machine-code bytes joined by comma-space, an arrow, the assembly in double
quotes, a comma-space, the machine-cycle count and a trailing comma; the
first machine-code byte is the opcode key unmodified. -/
theorem emission_shape (table : List Entry) (e : Entry) :
    generate table = table.map outputLine
    ∧ (generate table).length = table.length
    ∧ outputLine e =
        String.mk (List.replicate 12 ' ') ++ (genDescriptor e).testName ++ ": " ++
          String.intercalate ", " (genDescriptor e).machineCode ++ " => \"" ++
          (genDescriptor e).assembly ++ "\", " ++
          renderCycles (genDescriptor e).machineCycles ++ ","
    ∧ (genDescriptor e).machineCode.head? = some e.opcode := by
  refine ⟨rfl, by simp [generate], ?_, rfl⟩
  show outputLine e = String.mk (List.replicate 12 ' ') ++ (genDescriptor e).testName ++ ": " ++
      String.intercalate ", " (genDescriptor e).machineCode ++ " => \"" ++
      (genDescriptor e).assembly ++ "\", " ++
      renderCycles (genDescriptor e).machineCycles ++ ","
  have h12 : "            " = String.mk (List.replicate 12 ' ') := by decide
  rw [outputLine, h12]

/-- C9 counterexample: the entry `0x00` missing its `mnemonic` field does
not fail; the run emits a line whose test name is empty (the join renders
the `undefined` element as the empty string) and whose assembly is the
text `undefined` (template-literal rendering). -/
theorem missing_field_counterexample :
    genRaw ⟨"0x00", none, some [], some [4]⟩ =
      Except.ok "            : 0x00 => \"undefined\", 1," := by
  have h : ((4 : Nat) : ℚ) / 4 = 1 := by norm_num
  norm_num [genRaw, h, Except.ok.injEq]
  decide

/-- C9 (amended): a missing `operands` or `cycles` field surfaces an
immediate unrecovered `TypeError` when dereferenced, the failing entry
emits nothing and no later entry is processed, while lines of earlier
entries stand; a missing `mnemonic` does not fail: the emitted line
renders it as the empty string in the test-name join and as the text
`undefined` in the assembly; an entry whose `cycles` list is present but
empty also does not fail: `cycles[0]` is undefined and the machine-cycle
count is emitted as `NaN`. -/
theorem missing_field_failures (e : RawEntry) :
    (e.operands = none → genRaw e = Except.error "TypeError: cannot read map of undefined")
    ∧ (∀ ops, e.operands = some ops → e.cycles = none →
        genRaw e = Except.error "TypeError: cannot read 0 of undefined")
    ∧ (∀ ops cs, e.operands = some ops → e.cycles = some cs →
        ∃ line, genRaw e = Except.ok line)
    ∧ (∀ ops cs, e.operands = some ops → e.cycles = some cs → e.mnemonic = none →
        genRaw e = Except.ok ("            " ++
          stripDollars (jsToLower (String.intercalate "_" ("" :: ops.map operandNamePart))) ++
          ": " ++ String.intercalate ", " (e.opcode :: (ops.map operandBytes).flatten) ++
          " => \"" ++
          jsTrim ("undefined" ++ " " ++ String.intercalate ", " (ops.map operandToken)) ++
          "\", " ++
          renderJSNum (match (cs[0]? : Option Nat) with
            | none => JSNum.nan
            | some c => JSNum.num ((c : ℚ) / 4)) ++ ","))
    ∧ (∀ msg rest, genRaw e = Except.error msg → runRaw (e :: rest) = ([], some msg))
    ∧ (∀ line rest, genRaw e = Except.ok line →
        runRaw (e :: rest) = ((runRaw rest).1.cons line, (runRaw rest).2)) := by
  obtain ⟨k, m, os, cs⟩ := e
  refine ⟨?_, ?_, ?_, ?_, ?_, ?_⟩
  · rintro rfl; rfl
  · rintro ops rfl rfl; rfl
  · rintro ops cs2 rfl rfl; exact ⟨_, rfl⟩
  · rintro ops cs2 rfl rfl rfl; rfl
  · intro msg rest hmsg
    show (match genRaw ⟨k, m, os, cs⟩ with
      | Except.error msg => (([] : List String), some msg)
      | Except.ok line => ((runRaw rest).1.cons line, (runRaw rest).2)) = ([], some msg)
    rw [hmsg]
  · intro line rest hline
    show (match genRaw ⟨k, m, os, cs⟩ with
      | Except.error msg => (([] : List String), some msg)
      | Except.ok line => ((runRaw rest).1.cons line, (runRaw rest).2)) =
        ((runRaw rest).1.cons line, (runRaw rest).2)
    rw [hline]

/-- C9 witness: the branches at concrete raw entries: missing `operands`,
missing `cycles`, an empty `cycles` list (the `NaN` case), a missing
`mnemonic` (the emitted-line shape), and the fail-fast run behaviour. -/
theorem missing_field_failures_witness :
    genRaw ⟨"0x00", some "NOP", none, some [4]⟩ =
        Except.error "TypeError: cannot read map of undefined"
    ∧ genRaw ⟨"0x00", some "NOP", some [], none⟩ =
        Except.error "TypeError: cannot read 0 of undefined"
    ∧ (∃ line, genRaw ⟨"0x00", some "NOP", some [], some []⟩ = Except.ok line)
    ∧ genRaw ⟨"0x00", none, some [], some [4]⟩ = Except.ok ("            " ++
        stripDollars (jsToLower (String.intercalate "_" ("" :: List.map operandNamePart []))) ++
        ": " ++ String.intercalate ", " ("0x00" :: (List.map operandBytes []).flatten) ++
        " => \"" ++
        jsTrim ("undefined" ++ " " ++ String.intercalate ", " (List.map operandToken [])) ++
        "\", " ++
        renderJSNum (match (([4] : List Nat)[0]? : Option Nat) with
          | none => JSNum.nan
          | some c => JSNum.num ((c : ℚ) / 4)) ++ ",")
    ∧ runRaw [⟨"0x00", some "NOP", none, some [4]⟩] =
        ([], some "TypeError: cannot read map of undefined") :=
  ⟨(missing_field_failures _).1 rfl,
   (missing_field_failures _).2.1 [] rfl rfl,
   (missing_field_failures _).2.2.1 [] [] rfl rfl,
   (missing_field_failures _).2.2.2.1 [] [4] rfl rfl rfl,
   (missing_field_failures _).2.2.2.2.1 _ [] ((missing_field_failures _).1 rfl)⟩
